import Mathlib

/-!
Verification of the tag-reconciliation scripts (`tag_eventbridge.py`,
`tag_s3_new.py`, `tag_s3.py`): a shallow embedding of their data model and
operations, with theorems settling the specification's claims.

Python dictionaries of tag key/value pairs are modelled as association
lists in insertion order; `pyGet`, `pyInsert` and `pyMerge` mirror
`d.get(k)`, `d[k] = v` and `\x7b**a, **b\x7d` exactly (an insert overwrites an
existing key in place, otherwise appends).
-/

namespace TagScripts

/-- A tag map: Python `dict[str, str]` as an association list in insertion
order. -/
abbrev TagMap := List (String × String)

/-- Python `d.get(k)`: the value at the first (hence, for genuine dicts,
only) occurrence of key `k`, or `none`. -/
def pyGet {α : Type} (m : List (String × α)) (k : String) : Option α :=
  match m with
  | [] => none
  | p :: rest => if p.1 = k then some p.2 else pyGet rest k

/-- Python `d[k] = v`: overwrite the entry for `k` in place if present,
otherwise append it. -/
def pyInsert {α : Type} (m : List (String × α)) (k : String) (v : α) :
    List (String × α) :=
  if m.any (fun p => p.1 = k) then
    m.map (fun p => if p.1 = k then (k, v) else p)
  else
    m ++ [(k, v)]

/-- Python `\x7b**a, **b\x7d`: start from `a`, write every entry of `b` over it
(later keys of `b` win). Used at `tag_eventbridge.py:131` and
`tag_s3_new.py:77`. -/
def pyMerge {α : Type} (a b : List (String × α)) : List (String × α) :=
  b.foldl (fun acc p => pyInsert acc p.1 p.2) a

/-- Truthiness of Python `v.strip()`: `v` has a non-whitespace character. -/
def hasContent (v : String) : Bool :=
  v.data.any (fun c => !c.isWhitespace)

/-- Substring containment on character lists: some suffix of the haystack
starts with the needle. -/
def substrAux (n : List Char) : List Char → Bool
  | [] => n.isEmpty
  | c :: rest => n.isPrefixOf (c :: rest) || substrAux n rest

/-- Python `needle in hay` on strings: substring containment. -/
def strContains (hay needle : String) : Bool :=
  substrAux needle.data hay.data

section DictLemmas

variable {α : Type}

theorem pyGet_cons (p : String × α) (m : List (String × α)) (k : String) :
    pyGet (p :: m) k = if p.1 = k then some p.2 else pyGet m k := rfl

theorem pyGet_append (m₁ m₂ : List (String × α)) (k : String) :
    pyGet (m₁ ++ m₂) k = (pyGet m₁ k).or (pyGet m₂ k) := by
  induction m₁ with
  | nil => simp [pyGet]
  | cons p rest ih =>
    by_cases h : p.1 = k <;> simp [pyGet_cons, h, ih]

theorem pyGet_eq_none_of_not_mem (m : List (String × α)) (k : String)
    (h : k ∉ m.map Prod.fst) : pyGet m k = none := by
  induction m with
  | nil => rfl
  | cons p rest ih =>
    simp only [List.map_cons, List.mem_cons, not_or] at h
    have h1 : ¬ p.1 = k := fun he => h.1 he.symm
    simp [pyGet_cons, h1, ih h.2]

theorem pyGet_map_overwrite (m : List (String × α)) (k : String) (v : α)
    (k' : String) :
    pyGet (m.map (fun p => if p.1 = k then (k, v) else p)) k' =
      if k = k' then (if m.any (fun p => p.1 = k) then some v else none)
      else pyGet m k' := by
  induction m with
  | nil => simp [pyGet]
  | cons p rest ih =>
    simp only [List.map_cons]
    by_cases hp : p.1 = k
    · by_cases hkk : k = k'
      · subst hkk
        simp [pyGet_cons, hp, List.any_cons]
      · simp [pyGet_cons, hp, hkk, ih, List.any_cons]
    · by_cases hpk' : p.1 = k'
      · have hkk : ¬ k = k' := fun he => hp (hpk'.trans he.symm)
        have hk'k : ¬ k' = k := fun he => hkk he.symm
        simp [pyGet_cons, hp, hpk', hkk, hk'k]
      · rw [pyGet_cons, if_neg hp, if_neg hpk', ih, pyGet_cons, if_neg hpk',
          List.any_cons, decide_eq_false hp, Bool.false_or]

theorem pyGet_pyInsert (m : List (String × α)) (k : String) (v : α)
    (k' : String) :
    pyGet (pyInsert m k v) k' = if k = k' then some v else pyGet m k' := by
  unfold pyInsert
  by_cases hany : m.any (fun p => p.1 = k) = true
  · rw [if_pos hany, pyGet_map_overwrite, hany]
    by_cases hkk : k = k' <;> simp [hkk]
  · rw [if_neg hany, pyGet_append]
    have hnone : pyGet m k = none := by
      apply pyGet_eq_none_of_not_mem
      intro hmem
      apply hany
      rw [List.any_eq_true]
      rcases List.mem_map.mp hmem with ⟨p, hp, hpk⟩
      exact ⟨p, hp, by simpa using hpk⟩
    by_cases hkk : k = k'
    · subst hkk
      simp [hnone, pyGet_cons]
    · simp [hkk, pyGet_cons, pyGet]

/-- A fresh-key insert appends. -/
theorem pyInsert_fresh (m : List (String × α)) (k : String) (v : α)
    (h : k ∉ m.map Prod.fst) : pyInsert m k v = m ++ [(k, v)] := by
  unfold pyInsert
  rw [if_neg]
  intro hany
  rw [List.any_eq_true] at hany
  rcases hany with ⟨p, hp, hpk⟩
  exact h (List.mem_map.mpr ⟨p, hp, by simpa using hpk⟩)

theorem pyGet_pyMerge (a b : List (String × α))
    (hb : (b.map Prod.fst).Nodup) (k : String) :
    pyGet (pyMerge a b) k = (pyGet b k).or (pyGet a k) := by
  induction b generalizing a with
  | nil => simp [pyMerge, pyGet]
  | cons p rest ih =>
    simp only [List.map_cons, List.nodup_cons] at hb
    have step : pyMerge a (p :: rest) = pyMerge (pyInsert a p.1 p.2) rest := rfl
    rw [step, ih _ hb.2, pyGet_pyInsert, pyGet_cons]
    by_cases hpk : p.1 = k
    · subst hpk
      have : pyGet rest p.1 = none :=
        pyGet_eq_none_of_not_mem rest p.1 hb.1
      simp [this]
    · simp [hpk]

end DictLemmas

/-! ## Tag diff engine (`tag_eventbridge.py`, `show_tag_diff`, lines 58-82)

`show_tag_diff` walks the sorted union of the two key sets and prints one
line per differing key (`+` added, `-` removed, `~` changed); keys present
in both maps with equal values produce no line.  The embedding returns the
list of printed delta entries in print order. -/

/-- The kind of one printed diff line: `+`, `-` or `~`. -/
inductive DeltaKind : Type
  | Add : DeltaKind
  | Remove : DeltaKind
  | Change : DeltaKind
deriving DecidableEq, Repr

/-- One printed diff line of `show_tag_diff`. -/
structure DeltaEntry : Type where
  key : String
  kind : DeltaKind
  oldValue : Option String
  newValue : Option String
deriving DecidableEq, Repr

/-- Python `sorted(...)` on a list of strings (lexicographic code-point
order, as in the source's `sorted(all_keys)`). -/
def sortKeys (ks : List String) : List String :=
  List.insertionSort (fun a b => a ≤ b) ks

/-- The sorted union of both maps' key sets:
`sorted(set(current) | set(new))` at `tag_eventbridge.py:64,67`. -/
def allKeys (c d : TagMap) : List String :=
  sortKeys ((c.map Prod.fst ++ d.map Prod.fst).dedup)

/-- The classification of one key at `tag_eventbridge.py:68-79`:
`current_tags.get(key)` against `new_tags.get(key)`, yielding an added,
removed or changed line, or nothing when the values agree. -/
def diffAt (c d : TagMap) (k : String) : Option DeltaEntry :=
  match pyGet c k, pyGet d k with
  | none, some v => some ⟨k, DeltaKind.Add, none, some v⟩
  | some v, none => some ⟨k, DeltaKind.Remove, some v, none⟩
  | some v, some w =>
      if v = w then none else some ⟨k, DeltaKind.Change, some v, some w⟩
  | none, none => none

/-- The delta printed by `show_tag_diff(rule_name, current, new)` for a
tagging-supported resource, in print order. -/
def show_tag_diff (c d : TagMap) : List DeltaEntry :=
  (allKeys c d).filterMap (diffAt c d)

/-- Delete every entry for key `k` (delta application, claim side). -/
def eraseKey (m : TagMap) (k : String) : TagMap :=
  m.filter (fun p => p.1 ≠ k)

/-- Insert/overwrite key `k` with value `v` (delta application, claim
side). -/
def insertKey (m : TagMap) (k v : String) : TagMap :=
  (k, v) :: eraseKey m k

/-- Apply one delta entry: `Add` inserts, `Remove` deletes, `Change`
overwrites (the claim's reading of the delta). -/
def applyEntry (m : TagMap) (e : DeltaEntry) : TagMap :=
  match e.kind with
  | DeltaKind.Remove => eraseKey m e.key
  | _ => insertKey m e.key (e.newValue.getD "")

/-- Apply a whole delta in order. -/
def applyDelta (m : TagMap) (delta : List DeltaEntry) : TagMap :=
  delta.foldl applyEntry m

theorem pyGet_eraseKey (m : TagMap) (k k' : String) :
    pyGet (eraseKey m k) k' = if k = k' then none else pyGet m k' := by
  induction m with
  | nil => simp [eraseKey, pyGet]
  | cons p rest ih =>
    unfold eraseKey at ih ⊢
    by_cases hp : p.1 = k
    · rw [List.filter_cons_of_neg (by simp [hp])]
      rw [ih, pyGet_cons]
      by_cases hkk : k = k'
      · simp [hkk]
      · have : ¬ p.1 = k' := fun he => hkk ((hp.symm.trans he))
        simp [hkk, this]
    · rw [List.filter_cons_of_pos (by simp [hp])]
      rw [pyGet_cons, pyGet_cons, ih]
      by_cases hpk' : p.1 = k'
      · have : ¬ k = k' := fun he => hp (by rw [hpk', he])
        simp [hpk', this]
      · simp [hpk']

theorem pyGet_insertKey (m : TagMap) (k v k' : String) :
    pyGet (insertKey m k v) k' = if k = k' then some v else pyGet m k' := by
  rw [insertKey, pyGet_cons, pyGet_eraseKey]
  by_cases hkk : k = k' <;> simp [hkk]

theorem diffAt_key (c d : TagMap) (k : String) (e : DeltaEntry)
    (h : diffAt c d k = some e) : e.key = k := by
  unfold diffAt at h
  cases hc : pyGet c k <;> cases hd : pyGet d k <;> rw [hc, hd] at h <;>
    dsimp only at h
  · exact absurd h (by simp)
  · cases h; rfl
  · cases h; rfl
  · rename_i v w
    by_cases hvw : v = w
    · rw [if_pos hvw] at h; exact absurd h (by simp)
    · rw [if_neg hvw] at h; cases h; rfl

theorem diffAt_none (c d : TagMap) (k : String)
    (h : diffAt c d k = none) : pyGet c k = pyGet d k := by
  cases hc : pyGet c k <;> cases hd : pyGet d k
  · rfl
  · exfalso
    unfold diffAt at h
    rw [hc, hd] at h
    exact absurd h (by simp)
  · exfalso
    unfold diffAt at h
    rw [hc, hd] at h
    exact absurd h (by simp)
  · rename_i v w
    unfold diffAt at h
    rw [hc, hd] at h
    dsimp only at h
    by_cases hvw : v = w
    · rw [hvw]
    · rw [if_neg hvw] at h
      exact absurd h (by simp)

theorem applyEntry_get_other (m : TagMap) (e : DeltaEntry) (k : String)
    (h : e.key ≠ k) : pyGet (applyEntry m e) k = pyGet m k := by
  unfold applyEntry
  cases e.kind
  · rw [pyGet_insertKey, if_neg h]
  · rw [pyGet_eraseKey, if_neg h]
  · rw [pyGet_insertKey, if_neg h]

theorem applyEntry_get_self (c d : TagMap) (a : String) (e : DeltaEntry)
    (h : diffAt c d a = some e) (m : TagMap) :
    pyGet (applyEntry m e) a = pyGet d a := by
  unfold diffAt at h
  cases hc : pyGet c a <;> cases hd : pyGet d a <;> rw [hc, hd] at h <;>
    dsimp only at h
  · exact absurd h (by simp)
  · cases h; simp [applyEntry, pyGet_insertKey]
  · cases h; simp [applyEntry, pyGet_eraseKey]
  · rename_i v w
    by_cases hvw : v = w
    · rw [if_pos hvw] at h; exact absurd h (by simp)
    · rw [if_neg hvw] at h; cases h; simp [applyEntry, pyGet_insertKey]

/-- Replaying the classification of a duplicate-free key list over `m`:
keys in the list end at `d`'s value, others keep `m`'s. -/
theorem applyDelta_filterMap_get (c d : TagMap) :
    ∀ (ks : List String) (m : TagMap), ks.Nodup →
      (∀ k ∈ ks, pyGet m k = pyGet c k) →
      ∀ k, pyGet (applyDelta m (ks.filterMap (diffAt c d))) k =
        if k ∈ ks then pyGet d k else pyGet m k := by
  intro ks
  induction ks with
  | nil =>
    intro m _ _ k
    simp [applyDelta]
  | cons a rest ih =>
    intro m hnd hcompat k
    rw [List.nodup_cons] at hnd
    cases hfa : diffAt c d a with
    | none =>
      rw [List.filterMap_cons_none hfa,
        ih m hnd.2 (fun k' hk' => hcompat k' (List.mem_cons_of_mem a hk')) k]
      by_cases hk : k ∈ rest
      · simp [hk, List.mem_cons]
      · by_cases hka : k = a
        · subst hka
          have h1 : pyGet c k = pyGet d k := diffAt_none c d k hfa
          have h2 : pyGet m k = pyGet c k := hcompat k (by simp)
          simp [List.mem_cons, hk, h2, h1]
        · simp [List.mem_cons, hka, hk]
    | some e =>
      have hkey := diffAt_key c d a e hfa
      rw [List.filterMap_cons_some hfa]
      have hstep : applyDelta m (e :: List.filterMap (diffAt c d) rest) =
          applyDelta (applyEntry m e) (List.filterMap (diffAt c d) rest) := rfl
      have hcompat' : ∀ k' ∈ rest, pyGet (applyEntry m e) k' = pyGet c k' := by
        intro k' hk'
        have hne : e.key ≠ k' := by
          rw [hkey]
          intro he
          exact hnd.1 (he ▸ hk')
        rw [applyEntry_get_other m e k' hne]
        exact hcompat k' (List.mem_cons_of_mem a hk')
      rw [hstep, ih (applyEntry m e) hnd.2 hcompat' k]
      by_cases hk : k ∈ rest
      · simp [hk, List.mem_cons]
      · rw [if_neg hk]
        by_cases hka : k = a
        · subst hka
          rw [applyEntry_get_self c d k e hfa m]
          simp [List.mem_cons]
        · rw [applyEntry_get_other m e k (by rw [hkey]; exact fun he => hka he.symm)]
          simp [List.mem_cons, hka, hk]

theorem mem_allKeys (c d : TagMap) (k : String) :
    k ∈ allKeys c d ↔ k ∈ c.map Prod.fst ∨ k ∈ d.map Prod.fst := by
  unfold allKeys sortKeys
  rw [(List.perm_insertionSort _ _).mem_iff, List.mem_dedup, List.mem_append]

theorem allKeys_nodup (c d : TagMap) : (allKeys c d).Nodup :=
  ((List.perm_insertionSort _ _).nodup_iff).mpr (List.nodup_dedup _)

theorem sortKeys_sorted (l : List String) :
    List.Sorted (fun a b => a ≤ b) (sortKeys l) :=
  List.sorted_insertionSort _ l

theorem diff_keys_sublist (c d : TagMap) (ks : List String) :
    ((ks.filterMap (diffAt c d)).map DeltaEntry.key).Sublist ks := by
  induction ks with
  | nil => simp
  | cons a rest ih =>
    cases hfa : diffAt c d a with
    | none =>
      rw [List.filterMap_cons_none hfa]
      exact ih.cons a
    | some e =>
      rw [List.filterMap_cons_some hfa, List.map_cons, diffAt_key c d a e hfa]
      exact ih.cons₂ a

/-- C1: `show_tag_diff(current, desired)` contains exactly the keys whose
values differ between the two maps — each printed entry records the
current and desired values at its key, the values differ, `Add` entries
are exactly those with no current value, `Remove` entries exactly those
with no desired value (the rest are `Change`); every differing key
appears; entries come in sorted key order; applying the delta to
`current` (`Add` inserts, `Remove` deletes, `Change` overwrites) yields
exactly `desired` (as a key-value mapping); and `diff(T, T)` is empty. -/
theorem show_tag_diff_correct (c d : TagMap) :
    (∀ e ∈ show_tag_diff c d,
        e.oldValue = pyGet c e.key ∧ e.newValue = pyGet d e.key ∧
        e.oldValue ≠ e.newValue ∧
        (e.kind = DeltaKind.Add ↔ e.oldValue = none) ∧
        (e.kind = DeltaKind.Remove ↔ e.newValue = none)) ∧
    (∀ k, pyGet c k ≠ pyGet d k → ∃ e ∈ show_tag_diff c d, e.key = k) ∧
    List.Sorted (fun a b => a ≤ b) ((show_tag_diff c d).map DeltaEntry.key) ∧
    (∀ k, pyGet (applyDelta c (show_tag_diff c d)) k = pyGet d k) ∧
    show_tag_diff c c = [] := by
  refine ⟨?_, ?_, ?_, ?_, ?_⟩
  · intro e he
    rcases List.mem_filterMap.mp he with ⟨a, _, hfa⟩
    unfold diffAt at hfa
    cases hc : pyGet c a <;> cases hd : pyGet d a <;>
        rw [hc, hd] at hfa <;> dsimp only at hfa
    · exact absurd hfa (by simp)
    · cases hfa
      exact ⟨hc.symm, hd.symm, by simp, by simp, by simp⟩
    · cases hfa
      exact ⟨hc.symm, hd.symm, by simp, by simp, by simp⟩
    · rename_i v w
      by_cases hvw : v = w
      · rw [if_pos hvw] at hfa
        exact absurd hfa (by simp)
      · rw [if_neg hvw] at hfa
        cases hfa
        exact ⟨hc.symm, hd.symm, by simp [hvw], by simp, by simp⟩
  · intro k hne
    have hmem : k ∈ allKeys c d := by
      rw [mem_allKeys]
      by_contra hnot
      rw [not_or] at hnot
      rw [pyGet_eq_none_of_not_mem c k hnot.1,
        pyGet_eq_none_of_not_mem d k hnot.2] at hne
      exact hne rfl
    cases hfa : diffAt c d k with
    | none => exact absurd (diffAt_none c d k hfa) hne
    | some e =>
      exact ⟨e, List.mem_filterMap.mpr ⟨k, hmem, hfa⟩, diffAt_key c d k e hfa⟩
  · exact (sortKeys_sorted _).sublist (diff_keys_sublist c d _)
  · intro k
    rw [show_tag_diff,
      applyDelta_filterMap_get c d (allKeys c d) c (allKeys_nodup c d)
        (fun _ _ => rfl) k]
    by_cases hk : k ∈ allKeys c d
    · rw [if_pos hk]
    · rw [if_neg hk]
      rw [mem_allKeys, not_or] at hk
      rw [pyGet_eq_none_of_not_mem c k hk.1,
        pyGet_eq_none_of_not_mem d k hk.2]
  · rw [show_tag_diff, List.filterMap_eq_nil_iff]
    intro a _
    unfold diffAt
    cases hc : pyGet c a
    · rfl
    · simp

/-! ## S3 bucket tagger (`tag_s3_new.py`, class `S3BucketTagger`)

The remote S3 service is a state: each bucket's `get_bucket_tagging`
response and whether its mutating calls (`put_bucket_tagging`,
`delete_bucket_tagging`) succeed.  Every operation returns its Python
return value, the state after the call, and the list of mutating remote
calls it issued (issued calls are recorded even when the remote rejects
them). -/

/-- A `get_bucket_tagging` response: a tag set, or a `ClientError` with an
error code (`"NoSuchTagSet"` for a bucket with zero tags). -/
inductive S3FetchResp : Type
  | tagset : List (String × String) → S3FetchResp
  | clientError : String → S3FetchResp
deriving DecidableEq, Repr

/-- A mutating S3 call issued by the tagger. -/
inductive S3Call : Type
  | put : String → TagMap → S3Call
  | delete : String → S3Call
deriving DecidableEq, Repr

/-- The bucket a mutating call addresses. -/
def S3Call.bucket : S3Call → String
  | S3Call.put b _ => b
  | S3Call.delete b => b

/-- The remote S3 service as seen by one tagger run. -/
structure S3State : Type where
  /-- `get_bucket_tagging` behaviour per bucket name. -/
  fetch : String → S3FetchResp
  /-- whether `put_bucket_tagging` / `delete_bucket_tagging` succeed for a
  bucket (`false`: the call raises `ClientError`). -/
  putOk : String → Bool

/-- `get_bucket_tags` (`tag_s3_new.py:39-49`): parse the tag set into a
dict; a `NoSuchTagSet` error is an empty map, any other `ClientError`
re-raises (modelled as `Except.error` carrying the error code). -/
def get_bucket_tags (resp : S3FetchResp) : Except String TagMap :=
  match resp with
  | S3FetchResp.tagset ts => Except.ok (ts.foldl (fun acc p => pyInsert acc p.1 p.2) [])
  | S3FetchResp.clientError code =>
      if code = "NoSuchTagSet" then Except.ok [] else Except.error code

/-- `apply_tags_to_bucket` (`tag_s3_new.py:60-104`): filter empty-valued
desired tags, fetch existing tags (an uncaught fetch error is caught by
the surrounding `except ClientError` and yields `False`), back up
(best-effort, no remote effect), merge or replace, and either stop before
the mutating call (`dry_run`) or issue `put_bucket_tagging`. -/
def apply_tags_to_bucket (st : S3State) (bucket_name : String)
    (tags : TagMap) (merge_existing dry_run : Bool) :
    Bool × S3State × List S3Call :=
  let filtered_tags := tags.filter (fun p => hasContent p.2)
  match get_bucket_tags (st.fetch bucket_name) with
  | Except.error _ => (false, st, [])
  | Except.ok existing_tags =>
    let final_tags :=
      if merge_existing then pyMerge existing_tags filtered_tags
      else filtered_tags
    if dry_run then (true, st, [])
    else if st.putOk bucket_name then
      (true,
        { st with fetch := fun b =>
            if b = bucket_name then S3FetchResp.tagset final_tags
            else st.fetch b },
        [S3Call.put bucket_name final_tags])
    else (false, st, [S3Call.put bucket_name final_tags])

/-- `remove_tags_from_bucket` (`tag_s3_new.py:141-178`): fetch existing
tags, succeed at once when there are none, drop the requested keys, and
either stop before mutating (`dry_run`), delete the whole tag set when
nothing remains, or put the remaining tags. -/
def remove_tags_from_bucket (st : S3State) (bucket_name : String)
    (tag_keys : List String) (dry_run : Bool) :
    Bool × S3State × List S3Call :=
  match get_bucket_tags (st.fetch bucket_name) with
  | Except.error _ => (false, st, [])
  | Except.ok existing_tags =>
    if existing_tags.isEmpty then (true, st, [])
    else
      let remaining_tags :=
        existing_tags.filter (fun p => !(tag_keys.contains p.1))
      if dry_run then (true, st, [])
      else if remaining_tags.isEmpty then
        if st.putOk bucket_name then
          (true,
            { st with fetch := fun b =>
                if b = bucket_name then S3FetchResp.clientError "NoSuchTagSet"
                else st.fetch b },
            [S3Call.delete bucket_name])
        else (false, st, [S3Call.delete bucket_name])
      else
        if st.putOk bucket_name then
          (true,
            { st with fetch := fun b =>
                if b = bucket_name then S3FetchResp.tagset remaining_tags
                else st.fetch b },
            [S3Call.put bucket_name remaining_tags])
        else (false, st, [S3Call.put bucket_name remaining_tags])

/-- The bucket-name filter of `tag_all_bucket` (`tag_s3_new.py:117-119`):
no filter (Python `None` or `""`, both falsy) keeps every bucket,
otherwise substring containment on the name. -/
def bucketPasses (bucket_filter : Option String) (name : String) : Bool :=
  match bucket_filter with
  | none => true
  | some f => strContains name f

/-- One iteration of the `tag_all_bucket` loop (`tag_s3_new.py:126-131`):
apply to the bucket, record the boolean outcome in the results dict and
accumulate the issued calls. -/
def tagAllStep (tags : TagMap) (merge_existing dry_run : Bool)
    (acc : List (String × Bool) × S3State × List S3Call) (b : String) :
    List (String × Bool) × S3State × List S3Call :=
  let r := apply_tags_to_bucket acc.2.1 b tags merge_existing dry_run
  (pyInsert acc.1 b r.1, r.2.1, acc.2.2 ++ r.2.2)

/-- `tag_all_bucket` (`tag_s3_new.py:106-139`): list buckets, filter by
name, apply the tags to each in order recording each outcome in a dict,
and report `successful`/`total`.  `buckets` is the listed bucket-name
sequence; the result is (outcome dict, final remote state, issued calls,
(successful, total)). -/
def tag_all_bucket (st : S3State) (buckets : List String) (tags : TagMap)
    (merge_existing dry_run : Bool) (bucket_filter : Option String) :
    List (String × Bool) × S3State × List S3Call × (Nat × Nat) :=
  let filtered_buckets := buckets.filter (bucketPasses bucket_filter)
  let loop := filtered_buckets.foldl
    (tagAllStep tags merge_existing dry_run) ([], st, [])
  (loop.1, loop.2.1, loop.2.2,
    (loop.1.foldl (fun n p => n + (if p.2 then 1 else 0)) 0, loop.1.length))

/-- The tag map a mutating call carries (`delete` carries none). -/
def S3Call.tags : S3Call → TagMap
  | S3Call.put _ m => m
  | S3Call.delete _ => []

theorem pyGet_mem {α : Type} (m : List (String × α)) (k : String) (v : α)
    (h : pyGet m k = some v) : (k, v) ∈ m := by
  induction m with
  | nil => exact absurd h (by simp [pyGet])
  | cons p rest ih =>
    rw [pyGet_cons] at h
    by_cases hp : p.1 = k
    · rw [if_pos hp] at h
      cases h
      have hkp : (k, p.2) = p := by rw [← hp]
      rw [hkp]
      exact List.mem_cons_self p rest
    · rw [if_neg hp] at h
      exact List.mem_cons_of_mem p (ih h)

/-- C2: in merge mode the map written over the current tags is the union
of the two maps with the desired value winning on every overlapping key;
`apply_tags_to_bucket` sends exactly this merged map when the desired
tags survive the blank-value filter; and the spec's concrete example
merges as stated.  (`pyMerge` is the `\x7b**current, **desired\x7d` merge of
`tag_eventbridge.py:131,156` and `tag_s3_new.py:77`.) -/
theorem merge_mode_desired_wins (current desired : TagMap)
    (hd : (desired.map Prod.fst).Nodup) :
    (∀ k, pyGet (pyMerge current desired) k =
      (pyGet desired k).or (pyGet current k)) ∧
    (∀ st b, get_bucket_tags (st.fetch b) = Except.ok current →
      desired.all (fun p => hasContent p.2) = true →
      (apply_tags_to_bucket st b desired true false).2.2 =
        [S3Call.put b (pyMerge current desired)]) ∧
    pyMerge [("a", "1"), ("b", "2")] [("b", "3"), ("c", "4")] =
      [("a", "1"), ("b", "3"), ("c", "4")] := by
  refine ⟨fun k => pyGet_pyMerge current desired hd k, ?_, by decide⟩
  intro st b hfetch hall
  have hfil : desired.filter (fun p => hasContent p.2) = desired :=
    List.filter_eq_self.mpr (by simpa [List.all_eq_true] using hall)
  unfold apply_tags_to_bucket
  rw [hfetch]
  dsimp only
  rw [hfil]
  by_cases hput : st.putOk b = true <;> simp [hput]

/-- Witness for C2 at the spec's own example. -/
theorem merge_mode_desired_wins_witness :
    pyGet (pyMerge [("a", "1"), ("b", "2")] [("b", "3"), ("c", "4")]) "b" =
      (pyGet [("b", "3"), ("c", "4")] "b").or
        (pyGet [("a", "1"), ("b", "2")] "b") :=
  (merge_mode_desired_wins [("a", "1"), ("b", "2")] [("b", "3"), ("c", "4")]
    (by decide)).1 "b"

/-- C3 counterexample: with current state `\x7b"x": ""\x7d` and empty desired
tags, a merge-mode apply sends a tag map that still contains the
empty-string value — an empty-valued tag from the current state survives
into the final applied TagMap, so the final map is not empty-value-free
"regardless of the current state". -/
theorem apply_empty_value_persists :
    (apply_tags_to_bucket
        ⟨fun _ => S3FetchResp.tagset [("x", "")], fun _ => true⟩
        "b1" [] true false).2.2 = [S3Call.put "b1" [("x", "")]] := by decide

/-- C3 amended: `apply_tags_to_bucket` filters every desired tag whose
value is blank (Python `v.strip()` falsy) before sending, so in replace
mode the sent tag map contains no blank values at all, and in merge mode
any blank-valued binding in the sent map was already present in the
fetched current tags — only the current state, never the desired tags,
can contribute a blank value. -/
theorem apply_tags_to_bucket_filters_blank (st : S3State) (b : String)
    (tags existing : TagMap) (dry : Bool)
    (hfetch : get_bucket_tags (st.fetch b) = Except.ok existing)
    (hnd : (tags.map Prod.fst).Nodup) :
    (∀ kv ∈ tags.filter (fun p => hasContent p.2), hasContent kv.2 = true) ∧
    (∀ c ∈ (apply_tags_to_bucket st b tags false dry).2.2,
      ∀ kv ∈ c.tags, hasContent kv.2 = true) ∧
    (∀ c ∈ (apply_tags_to_bucket st b tags true dry).2.2,
      ∀ k v, pyGet c.tags k = some v → hasContent v = false →
        pyGet existing k = some v) := by
  have hfilmem : ∀ kv ∈ tags.filter (fun p => hasContent p.2),
      hasContent kv.2 = true := by
    intro kv hkv
    exact (List.mem_filter.mp hkv).2
  refine ⟨hfilmem, ?_, ?_⟩
  · intro c hc kv hkv
    unfold apply_tags_to_bucket at hc
    rw [hfetch] at hc
    dsimp only at hc
    by_cases hdry : dry = true
    · rw [if_pos hdry] at hc
      exact absurd hc (by simp)
    · rw [if_neg hdry] at hc
      by_cases hput : st.putOk b = true <;>
          [rw [if_pos hput] at hc; rw [if_neg hput] at hc] <;>
        · rw [List.mem_singleton] at hc
          subst hc
          exact hfilmem kv hkv
  · intro c hc k v hget hblank
    unfold apply_tags_to_bucket at hc
    rw [hfetch] at hc
    dsimp only at hc
    by_cases hdry : dry = true
    · rw [if_pos hdry] at hc
      exact absurd hc (by simp)
    · rw [if_neg hdry] at hc
      have hctags : c.tags =
          pyMerge existing (tags.filter (fun p => hasContent p.2)) := by
        by_cases hput : st.putOk b = true <;>
            [rw [if_pos hput] at hc; rw [if_neg hput] at hc] <;>
          · rw [List.mem_singleton] at hc
            subst hc
            rfl
      have hndf : ((tags.filter (fun p => hasContent p.2)).map
          Prod.fst).Nodup :=
        ((List.filter_sublist tags).map Prod.fst).nodup hnd
      rw [hctags] at hget
      rw [pyGet_pyMerge _ _ hndf k] at hget
      cases hf : pyGet (tags.filter (fun p => hasContent p.2)) k with
      | none => rw [hf, Option.none_or] at hget; exact hget
      | some w =>
        rw [hf] at hget
        rw [show (some w).or (pyGet existing k) = some w from rfl] at hget
        cases hget
        have := hfilmem (k, v) (pyGet_mem _ k v hf)
        rw [this] at hblank
        exact absurd hblank (by simp)

/-- Witness for C3's amended theorem: desired `\x7b"x": "", "z": "1"\x7d` over
current `\x7b"y": ""\x7d`. -/
theorem apply_tags_to_bucket_filters_blank_witness :
    (∀ kv ∈ ([("x", ""), ("z", "1")] : TagMap).filter
        (fun p => hasContent p.2), hasContent kv.2 = true) ∧
    (∀ c ∈ (apply_tags_to_bucket
        ⟨fun _ => S3FetchResp.tagset [("y", "")], fun _ => true⟩
        "b1" [("x", ""), ("z", "1")] false false).2.2,
      ∀ kv ∈ c.tags, hasContent kv.2 = true) ∧
    (∀ c ∈ (apply_tags_to_bucket
        ⟨fun _ => S3FetchResp.tagset [("y", "")], fun _ => true⟩
        "b1" [("x", ""), ("z", "1")] true false).2.2,
      ∀ k v, pyGet c.tags k = some v → hasContent v = false →
        pyGet [("y", "")] k = some v) :=
  apply_tags_to_bucket_filters_blank
    ⟨fun _ => S3FetchResp.tagset [("y", "")], fun _ => true⟩
    "b1" [("x", ""), ("z", "1")] [("y", "")] false (by rfl) (by decide)

/-- C9: with `dry_run=True`, `apply_tags_to_bucket` and
`remove_tags_from_bucket` issue zero mutating remote calls and leave the
remote state untouched; whenever the (read-only) tag fetch succeeds they
report success; and a second dry run from the resulting state returns the
identical result. -/
theorem dry_run_no_mutation (st : S3State) (b : String) (tags : TagMap)
    (merge : Bool) (tag_keys : List String) :
    (apply_tags_to_bucket st b tags merge true).2.1 = st ∧
    (apply_tags_to_bucket st b tags merge true).2.2 = [] ∧
    (remove_tags_from_bucket st b tag_keys true).2.1 = st ∧
    (remove_tags_from_bucket st b tag_keys true).2.2 = [] ∧
    (∀ existing, get_bucket_tags (st.fetch b) = Except.ok existing →
      (apply_tags_to_bucket st b tags merge true).1 = true ∧
      (remove_tags_from_bucket st b tag_keys true).1 = true) ∧
    apply_tags_to_bucket (apply_tags_to_bucket st b tags merge true).2.1
        b tags merge true = apply_tags_to_bucket st b tags merge true ∧
    remove_tags_from_bucket (remove_tags_from_bucket st b tag_keys true).2.1
        b tag_keys true = remove_tags_from_bucket st b tag_keys true := by
  have ha : (apply_tags_to_bucket st b tags merge true).2.1 = st ∧
      (apply_tags_to_bucket st b tags merge true).2.2 = [] := by
    unfold apply_tags_to_bucket
    cases get_bucket_tags (st.fetch b) <;> simp
  have hr : (remove_tags_from_bucket st b tag_keys true).2.1 = st ∧
      (remove_tags_from_bucket st b tag_keys true).2.2 = [] := by
    unfold remove_tags_from_bucket
    cases get_bucket_tags (st.fetch b) with
    | error e => simp
    | ok existing =>
      by_cases he : existing.isEmpty = true <;> simp [he]
  refine ⟨ha.1, ha.2, hr.1, hr.2, ?_, by rw [ha.1], by rw [hr.1]⟩
  intro existing hfetch
  constructor
  · unfold apply_tags_to_bucket
    rw [hfetch]
    rfl
  · unfold remove_tags_from_bucket
    rw [hfetch]
    dsimp only
    by_cases he : existing.isEmpty = true <;> simp [he]

/-- One apply never changes the remote success flags and only changes the
fetch behaviour of its own bucket. -/
theorem apply_changes_only_self (st : S3State) (b : String) (tags : TagMap)
    (merge dry : Bool) :
    (apply_tags_to_bucket st b tags merge dry).2.1.putOk = st.putOk ∧
    ∀ b', b' ≠ b →
      (apply_tags_to_bucket st b tags merge dry).2.1.fetch b' =
        st.fetch b' := by
  unfold apply_tags_to_bucket
  cases get_bucket_tags (st.fetch b) with
  | error e => exact ⟨rfl, fun _ _ => rfl⟩
  | ok existing =>
    dsimp only
    by_cases hdry : dry = true
    · rw [if_pos hdry]
      exact ⟨rfl, fun _ _ => rfl⟩
    · rw [if_neg hdry]
      by_cases hput : st.putOk b = true
      · rw [if_pos hput]
        exact ⟨rfl, fun b' hb' => by simp [hb']⟩
      · rw [if_neg hput]
        exact ⟨rfl, fun _ _ => rfl⟩

/-- An apply's outcome and issued calls depend only on the remote's
behaviour at its own bucket. -/
theorem apply_outcome_congr (st st' : S3State) (b : String) (tags : TagMap)
    (merge dry : Bool) (hf : st'.fetch b = st.fetch b)
    (hp : st'.putOk b = st.putOk b) :
    (apply_tags_to_bucket st' b tags merge dry).1 =
      (apply_tags_to_bucket st b tags merge dry).1 ∧
    (apply_tags_to_bucket st' b tags merge dry).2.2 =
      (apply_tags_to_bucket st b tags merge dry).2.2 := by
  unfold apply_tags_to_bucket
  rw [hf, hp]
  cases get_bucket_tags (st.fetch b) with
  | error e => exact ⟨rfl, rfl⟩
  | ok existing =>
    dsimp only
    by_cases hdry : dry = true <;> by_cases hput : st.putOk b = true <;>
      simp [hdry, hput]

/-- Every call an apply issues addresses its own bucket. -/
theorem apply_calls_own_bucket (st : S3State) (b : String) (tags : TagMap)
    (merge dry : Bool) :
    ∀ c ∈ (apply_tags_to_bucket st b tags merge dry).2.2,
      c.bucket = b := by
  unfold apply_tags_to_bucket
  cases get_bucket_tags (st.fetch b) with
  | error e => simp
  | ok existing =>
    dsimp only
    by_cases hdry : dry = true
    · rw [if_pos hdry]
      simp
    · rw [if_neg hdry]
      by_cases hput : st.putOk b = true
      · rw [if_pos hput]
        intro c hc
        rw [List.mem_singleton] at hc
        rw [hc]
        rfl
      · rw [if_neg hput]
        intro c hc
        rw [List.mem_singleton] at hc
        rw [hc]
        rfl

/-- The per-bucket loop of `tag_all_bucket`, characterized against the
starting remote state: each pending bucket's outcome and calls are those
of an apply against the original state, appended in order. -/
theorem tag_all_bucket_loop_spec (st : S3State) (tags : TagMap)
    (merge dry : Bool) :
    ∀ (bs : List String) (stCur : S3State) (accR : List (String × Bool))
      (accC : List S3Call),
      bs.Nodup →
      (∀ b ∈ bs, stCur.fetch b = st.fetch b) →
      stCur.putOk = st.putOk →
      (∀ b ∈ bs, b ∉ accR.map Prod.fst) →
      (bs.foldl (tagAllStep tags merge dry) (accR, stCur, accC)).1 =
          accR ++ bs.map
            (fun b => (b, (apply_tags_to_bucket st b tags merge dry).1)) ∧
      (bs.foldl (tagAllStep tags merge dry) (accR, stCur, accC)).2.2 =
          accC ++ bs.flatMap
            (fun b => (apply_tags_to_bucket st b tags merge dry).2.2) := by
  intro bs
  induction bs with
  | nil =>
    intro stCur accR accC _ _ _ _
    simp
  | cons b rest ih =>
    intro stCur accR accC hnd hfetch hput hfresh
    rw [List.nodup_cons] at hnd
    have hcongr := apply_outcome_congr st stCur b tags merge dry
      (hfetch b (by simp)) (by rw [hput])
    have hself := apply_changes_only_self stCur b tags merge dry
    have hfetch' : ∀ b' ∈ rest,
        (apply_tags_to_bucket stCur b tags merge dry).2.1.fetch b' =
          st.fetch b' := by
      intro b' hb'
      rw [hself.2 b' (fun he => hnd.1 (he ▸ hb'))]
      exact hfetch b' (List.mem_cons_of_mem b hb')
    have hput' : (apply_tags_to_bucket stCur b tags merge dry).2.1.putOk =
        st.putOk := by
      rw [hself.1, hput]
    have hfreshb : b ∉ accR.map Prod.fst := hfresh b (by simp)
    have hinsert : pyInsert accR b
        (apply_tags_to_bucket stCur b tags merge dry).1 =
        accR ++ [(b, (apply_tags_to_bucket st b tags merge dry).1)] := by
      rw [pyInsert_fresh accR b _ hfreshb, hcongr.1]
    have hfresh' : ∀ b' ∈ rest,
        b' ∉ (accR ++
          [(b, (apply_tags_to_bucket st b tags merge dry).1)]).map
            Prod.fst := by
      intro b' hb'
      rw [List.map_append, List.mem_append]
      rintro (h1 | h2)
      · exact hfresh b' (List.mem_cons_of_mem b hb') h1
      · rw [List.map_singleton, List.mem_singleton] at h2
        have h2' : b' = b := h2
        exact hnd.1 (h2' ▸ hb')
    have hstep := ih (apply_tags_to_bucket stCur b tags merge dry).2.1
      (accR ++ [(b, (apply_tags_to_bucket st b tags merge dry).1)])
      (accC ++ (apply_tags_to_bucket st b tags merge dry).2.2)
      hnd.2 hfetch' hput' hfresh'
    rw [List.foldl_cons]
    have hstepdef : tagAllStep tags merge dry (accR, stCur, accC) b =
        (pyInsert accR b (apply_tags_to_bucket stCur b tags merge dry).1,
          (apply_tags_to_bucket stCur b tags merge dry).2.1,
          accC ++ (apply_tags_to_bucket stCur b tags merge dry).2.2) := rfl
    constructor
    · rw [hstepdef, hinsert, hcongr.2, hstep.1, List.map_cons,
        List.append_assoc]
      rfl
    · rw [hstepdef, hinsert, hcongr.2, hstep.2, List.flatMap_cons,
        List.append_assoc]

/-- Summing booleans as 0/1 counts the `true` entries. -/
theorem foldl_count_true (l : List (String × Bool)) (n : Nat) :
    l.foldl (fun n p => n + (if p.2 then 1 else 0)) n =
      n + (l.filter (fun p => p.2)).length := by
  induction l generalizing n with
  | nil => simp
  | cons p rest ih =>
    rw [List.foldl_cons, ih]
    by_cases hp : p.2 = true <;> simp [hp, List.filter_cons] <;> omega

/-- C6: one resource's failure is isolated — `tag_all_bucket` records, for
every filtered bucket, exactly the outcome `apply_tags_to_bucket` yields
for that bucket against the original remote state, in listing order.  A
fetch or apply failure at one bucket (recorded `false`) therefore cannot
abort the run or change any other bucket's recorded outcome, and the
result covers every filtered bucket. -/
theorem tag_all_bucket_isolated (st : S3State) (buckets : List String)
    (tags : TagMap) (merge dry : Bool) (filt : Option String)
    (hnd : buckets.Nodup) :
    (tag_all_bucket st buckets tags merge dry filt).1 =
      (buckets.filter (bucketPasses filt)).map
        (fun b => (b, (apply_tags_to_bucket st b tags merge dry).1)) := by
  have h := tag_all_bucket_loop_spec st tags merge dry
    (buckets.filter (bucketPasses filt)) st [] [] (hnd.filter _)
    (fun _ _ => rfl) rfl (fun _ _ => by simp)
  simpa [tag_all_bucket] using h.1

/-- Witness for C6: three buckets, the middle one failing its tag fetch
with `AccessDenied`; the outer two still succeed. -/
theorem tag_all_bucket_isolated_witness :
    (tag_all_bucket
        ⟨fun b => if b = "r2" then S3FetchResp.clientError "AccessDenied"
          else S3FetchResp.tagset [], fun _ => true⟩
        ["r1", "r2", "r3"] [("Env", "dev")] true false none).1 =
      [("r1", true), ("r2", false), ("r3", true)] := by
  rw [tag_all_bucket_isolated
    ⟨fun b => if b = "r2" then S3FetchResp.clientError "AccessDenied"
      else S3FetchResp.tagset [], fun _ => true⟩
    ["r1", "r2", "r3"] [("Env", "dev")] true false none (by decide)]
  rfl

/-- C10: the outcome dict of `tag_all_bucket` has exactly one boolean
entry per listed bucket passing the name filter; buckets not passing the
filter get no outcome and no mutating call is addressed to them; the
reported success count is the number of `true` entries; the reported
total is the number of entries. -/
theorem tag_all_bucket_outcomes (st : S3State) (buckets : List String)
    (tags : TagMap) (merge dry : Bool) (filt : Option String)
    (hnd : buckets.Nodup) :
    (tag_all_bucket st buckets tags merge dry filt).1.map Prod.fst =
      buckets.filter (bucketPasses filt) ∧
    (∀ b, b ∉ buckets.filter (bucketPasses filt) →
      pyGet (tag_all_bucket st buckets tags merge dry filt).1 b = none) ∧
    (∀ c ∈ (tag_all_bucket st buckets tags merge dry filt).2.2.1,
      c.bucket ∈ buckets.filter (bucketPasses filt)) ∧
    (tag_all_bucket st buckets tags merge dry filt).2.2.2.1 =
      ((tag_all_bucket st buckets tags merge dry filt).1.filter
        (fun p => p.2)).length ∧
    (tag_all_bucket st buckets tags merge dry filt).2.2.2.2 =
      (tag_all_bucket st buckets tags merge dry filt).1.length := by
  have h := tag_all_bucket_loop_spec st tags merge dry
    (buckets.filter (bucketPasses filt)) st [] [] (hnd.filter _)
    (fun _ _ => rfl) rfl (fun _ _ => by simp)
  have hres : (tag_all_bucket st buckets tags merge dry filt).1 =
      (buckets.filter (bucketPasses filt)).map
        (fun b => (b, (apply_tags_to_bucket st b tags merge dry).1)) := by
    simpa [tag_all_bucket] using h.1
  have hcalls : (tag_all_bucket st buckets tags merge dry filt).2.2.1 =
      (buckets.filter (bucketPasses filt)).flatMap
        (fun b => (apply_tags_to_bucket st b tags merge dry).2.2) := by
    simpa [tag_all_bucket] using h.2
  have hfst : (tag_all_bucket st buckets tags merge dry filt).1.map
      Prod.fst = buckets.filter (bucketPasses filt) := by
    rw [hres, List.map_map]
    have hcomp : (Prod.fst ∘
        fun b => (b, (apply_tags_to_bucket st b tags merge dry).1)) =
        fun b : String => b := rfl
    rw [hcomp, List.map_id']
  refine ⟨hfst, ?_, ?_, ?_, ?_⟩
  · intro b hb
    apply pyGet_eq_none_of_not_mem
    rw [hfst]
    exact hb
  · intro c hc
    rw [hcalls] at hc
    rcases List.mem_flatMap.mp hc with ⟨b, hb, hcb⟩
    have := apply_calls_own_bucket st b tags merge dry c hcb
    rw [this]
    exact hb
  · rw [show (tag_all_bucket st buckets tags merge dry filt).2.2.2.1 =
        (tag_all_bucket st buckets tags merge dry filt).1.foldl
          (fun n p => n + (if p.2 then 1 else 0)) 0 from rfl,
      foldl_count_true, Nat.zero_add]
  · rfl

/-- Witness for C10: two buckets, filter `"alp"` keeping only the
first. -/
theorem tag_all_bucket_outcomes_witness :
    (tag_all_bucket ⟨fun _ => S3FetchResp.tagset [], fun _ => true⟩
        ["alpha", "beta"] [("Env", "dev")] true false
        (some "alp")).1.map Prod.fst =
      ["alpha", "beta"].filter (bucketPasses (some "alp")) :=
  (tag_all_bucket_outcomes ⟨fun _ => S3FetchResp.tagset [], fun _ => true⟩
    ["alpha", "beta"] [("Env", "dev")] true false (some "alp")
    (by decide)).1

/-! ## EventBridge tagger (`tag_eventbridge.py`, class `EventBridgeTagger`)

`list_rules_by_pattern` wraps the whole pagination walk in one
`try/except (ClientError, BotoCoreError)` whose handler returns `[]`; the
inner per-rule tag fetch catches only `ClientError` (marking the rule
unsupported with empty tags), so a `BotoCoreError` there also reaches the
outer handler.  The remote behaviour is a page sequence plus a tag-fetch
response per rule ARN. -/

/-- One rule as listed by the `list_rules` paginator. -/
structure EBRule : Type where
  name : String
  arn : String
deriving DecidableEq, Repr

/-- One discovered rule record appended to `matched_rules`
(`tag_eventbridge.py:35-51`); `tagging_supported` defaults to `True` and
is set `False` when the tag fetch raised `ClientError`. -/
structure RuleInfo : Type where
  name : String
  arn : String
  current_tags : TagMap
  tagging_supported : Bool
deriving DecidableEq, Repr

/-- A `list_tags_for_resource` response for one rule. -/
inductive TagFetchResp : Type
  | tags : List (String × String) → TagFetchResp
  | clientError : String → TagFetchResp
  | botoError : TagFetchResp
deriving DecidableEq, Repr

/-- One `paginate()` step: a page of rules, or a raised
`ClientError`/`BotoCoreError` while fetching the page. -/
inductive PageResp : Type
  | page : List EBRule → PageResp
  | pageError : PageResp
deriving DecidableEq, Repr

/-- `any(pattern in rule_name for pattern in name_patterns)`
(`tag_eventbridge.py:30`). -/
def ruleMatches (name_patterns : List String) (rule_name : String) : Bool :=
  name_patterns.any (fun p => strContains rule_name p)

/-- Processing of one listed rule (`tag_eventbridge.py:26-52`): skip a
non-matching rule; on a successful tag fetch record it taggable; on
`ClientError` record it with empty tags and `tagging_supported=False`;
on `BotoCoreError` the exception escapes to the outer handler
(`Except.error`). -/
def processRule (name_patterns : List String)
    (tagFetch : String → TagFetchResp) (r : EBRule) :
    Except Unit (Option RuleInfo) :=
  if ruleMatches name_patterns r.name then
    match tagFetch r.arn with
    | TagFetchResp.tags ts =>
        Except.ok (some ⟨r.name, r.arn,
          ts.foldl (fun acc p => pyInsert acc p.1 p.2) [], true⟩)
    | TagFetchResp.clientError _ => Except.ok (some ⟨r.name, r.arn, [], false⟩)
    | TagFetchResp.botoError => Except.error ()
  else Except.ok none

/-- Process one page's rules in order, stopping at an escaping error. -/
def processPage (name_patterns : List String)
    (tagFetch : String → TagFetchResp) : List EBRule →
    Except Unit (List RuleInfo)
  | [] => Except.ok []
  | r :: rest =>
    match processRule name_patterns tagFetch r with
    | Except.error _ => Except.error ()
    | Except.ok none => processPage name_patterns tagFetch rest
    | Except.ok (some info) =>
      match processPage name_patterns tagFetch rest with
      | Except.error _ => Except.error ()
      | Except.ok infos => Except.ok (info :: infos)

/-- The pagination walk: accumulate matched rules page by page; any
`ClientError`/`BotoCoreError` reaching the outer handler makes the whole
function return `[]` (`tag_eventbridge.py:54-56`), discarding the rules
already accumulated. -/
def walkPages (name_patterns : List String)
    (tagFetch : String → TagFetchResp) :
    List PageResp → List RuleInfo → List RuleInfo
  | [], acc => acc
  | PageResp.pageError :: _, _ => []
  | PageResp.page rules :: rest, acc =>
    match processPage name_patterns tagFetch rules with
    | Except.error _ => []
    | Except.ok infos => walkPages name_patterns tagFetch rest (acc ++ infos)

/-- `list_rules_by_pattern` (`tag_eventbridge.py:20-56`) over a remote
behaviour given as the page sequence and per-ARN tag-fetch responses. -/
def list_rules_by_pattern (pages : List PageResp)
    (name_patterns : List String) (tagFetch : String → TagFetchResp) :
    List RuleInfo :=
  walkPages name_patterns tagFetch pages []

/-- C7 counterexample: the first page yields a matched, taggable rule,
then the second page fetch raises — `list_rules_by_pattern` returns `[]`,
not the partial matched set (which the same walk without the failing page
shows to be non-empty): the collected partial results ARE discarded. -/
theorem discovery_failure_discards_partial :
    list_rules_by_pattern
        [PageResp.page [⟨"test-rule", "arn1"⟩], PageResp.pageError]
        ["test"] (fun _ => TagFetchResp.tags [("k", "v")]) = [] ∧
    list_rules_by_pattern [PageResp.page [⟨"test-rule", "arn1"⟩]]
        ["test"] (fun _ => TagFetchResp.tags [("k", "v")]) =
      [⟨"test-rule", "arn1", [("k", "v")], true⟩] := by
  exact ⟨rfl, rfl⟩

/-- Any page-fetch failure empties the whole walk, whatever was already
accumulated. -/
theorem walkPages_pageError (name_patterns : List String)
    (tagFetch : String → TagFetchResp) :
    ∀ (pages : List PageResp), PageResp.pageError ∈ pages →
      ∀ acc, walkPages name_patterns tagFetch pages acc = [] := by
  intro pages
  induction pages with
  | nil =>
    intro h
    exact absurd h (by simp)
  | cons pg rest ih =>
    intro h acc
    cases pg with
    | pageError => rfl
    | page rules =>
      have hrest : PageResp.pageError ∈ rest := by
        rcases List.mem_cons.mp h with h1 | h2
        · exact absurd h1 (by simp)
        · exact h2
      show (match processPage name_patterns tagFetch rules with
        | Except.error _ => []
        | Except.ok infos =>
            walkPages name_patterns tagFetch rest (acc ++ infos)) = []
      cases processPage name_patterns tagFetch rules with
      | error e => rfl
      | ok infos => exact ih hrest (acc ++ infos)

/-- C7 amended: a failure of the discovery walk itself is not an aborting
exception — the handler catches it — but the run then ends with the EMPTY
matched set: whenever any page fetch fails, `list_rules_by_pattern`
returns `[]`, discarding every already-collected partial result; the
caller (`tag_rules`) then reports no matches and performs zero
mutations. -/
theorem discovery_failure_returns_empty (pages : List PageResp)
    (name_patterns : List String) (tagFetch : String → TagFetchResp)
    (h : PageResp.pageError ∈ pages) :
    list_rules_by_pattern pages name_patterns tagFetch = [] :=
  walkPages_pageError name_patterns tagFetch pages h []

/-- Witness for C7's amended theorem: a one-good-page, one-bad-page
walk comes back empty. -/
theorem discovery_failure_returns_empty_witness :
    list_rules_by_pattern
        [PageResp.page [⟨"test-rule", "arn1"⟩], PageResp.pageError]
        ["test"] (fun _ => TagFetchResp.tags []) = [] :=
  discovery_failure_returns_empty
    [PageResp.page [⟨"test-rule", "arn1"⟩], PageResp.pageError]
    ["test"] (fun _ => TagFetchResp.tags []) (by simp)

/-- C8: the tag fetch treats "no tag set" as success with an empty map —
both the `NoSuchTagSet` error code and a present-but-empty tag set parse
to `{}` — while any other `ClientError` code re-raises to the caller as a
typed failure carrying that code, never silently becoming an empty
map. -/
theorem get_bucket_tags_classification (code : String)
    (hcode : code ≠ "NoSuchTagSet") :
    get_bucket_tags (S3FetchResp.clientError "NoSuchTagSet") =
      Except.ok [] ∧
    get_bucket_tags (S3FetchResp.tagset []) = Except.ok [] ∧
    get_bucket_tags (S3FetchResp.clientError code) = Except.error code := by
  refine ⟨rfl, rfl, ?_⟩
  show (if code = "NoSuchTagSet" then Except.ok ([] : TagMap)
    else Except.error code) = Except.error code
  rw [if_neg hcode]

/-- Witness for C8 at the `AccessDenied` error code. -/
theorem get_bucket_tags_classification_witness :
    get_bucket_tags (S3FetchResp.clientError "NoSuchTagSet") =
      Except.ok [] ∧
    get_bucket_tags (S3FetchResp.tagset []) = Except.ok [] ∧
    get_bucket_tags (S3FetchResp.clientError "AccessDenied") =
      Except.error "AccessDenied" :=
  get_bucket_tags_classification "AccessDenied" (by decide)

/-- Python `s.strip()` on the character list: drop whitespace from both
ends. -/
def pyStripChars (l : List Char) : List Char :=
  ((l.dropWhile Char.isWhitespace).reverse.dropWhile
    Char.isWhitespace).reverse

/-- `input(...).strip().lower()` normalization of the confirmation answer
(`tag_eventbridge.py:142`). -/
def pyNormAnswer (s : String) : String :=
  ⟨(pyStripChars s.data).map Char.toLower⟩

/-- How one `tag_rules` run ends. -/
inductive TagRulesEnd : Type
  /-- `rules` empty: prints "No Match" and returns. -/
  | noMatch : TagRulesEnd
  /-- no taggable rule: prints and returns before the gate. -/
  | noTaggable : TagRulesEnd
  /-- the confirmation was declined: after printing
  "Tagging aborted by user." line 149 reads the undefined variable
  `response` and the run dies with an uncaught `NameError`. -/
  | nameErrorCrash : TagRulesEnd
  /-- the confirmation was accepted (or `CI=true`): line 143 calls
  `apply_tags(taggable_rules, tags)` with two arguments where the method
  takes three, so the run dies with an uncaught `TypeError` before any
  remote call. -/
  | typeErrorCrash : TagRulesEnd
deriving DecidableEq, Repr

/-- `tag_rules` (`tag_eventbridge.py:115-161`) after discovery: `rules`
is the `list_rules_by_pattern` result, `is_ci` the `CI == "true"` check,
`answer` the raw interactive reply.  The diff display (lines 129-133) has
no effect on the outcome.  Every path with at least one taggable rule
crashes before issuing any mutating call: the accept branch with a
`TypeError` (wrong-arity `apply_tags` call), the decline branch with a
`NameError` (undefined `response`); the per-rule apply loop at lines
153-159 is unreachable, so the run never issues a mutating call. -/
def tag_rules (rules : List RuleInfo) (is_ci : Bool) (answer : String) :
    TagRulesEnd :=
  if rules.isEmpty then TagRulesEnd.noMatch
  else if (rules.filter (fun r => r.tagging_supported)).isEmpty then
    TagRulesEnd.noTaggable
  else if is_ci || pyNormAnswer answer = "yes" then TagRulesEnd.typeErrorCrash
  else TagRulesEnd.nameErrorCrash

/-- C4 (code bug): with one taggable rule, declining the confirmation
does end with zero mutating calls, but not with a clean `Skipped`
outcome — the run crashes on the undefined `response` variable
(`NameError`); accepting (or `CI=true`) crashes with a `TypeError` from
the wrong-arity `apply_tags` call; with zero matched or zero taggable
rules the gate is skipped and the run ends immediately, as claimed. -/
theorem tag_rules_gate_behaviour :
    tag_rules [⟨"test-rule", "arn1", [], true⟩] false "no" =
      TagRulesEnd.nameErrorCrash ∧
    tag_rules [⟨"test-rule", "arn1", [], true⟩] true "" =
      TagRulesEnd.typeErrorCrash ∧
    tag_rules [⟨"test-rule", "arn1", [], true⟩] false "yes" =
      TagRulesEnd.typeErrorCrash ∧
    tag_rules [] false "" = TagRulesEnd.noMatch ∧
    tag_rules [⟨"r", "a", [], false⟩] false "" =
      TagRulesEnd.noTaggable := by
  refine ⟨?_, rfl, ?_, rfl, rfl⟩ <;> rfl

/-! ## Apply with throttling retry (`tag_eventbridge.py`, `apply_tags`)

`apply_tags` issues `tag_resource` and classifies a raised `ClientError`
by code; on `"ThrottlingExcep"` it sleeps two seconds and re-invokes
itself with the same arguments (`tag_eventbridge.py:104-107`) — a
recursion with no bound.  The remote behaviour is a response per
invocation (`attempt` indexes successive invocations), and `fuel` is the
embedding's recursion budget: `none` means the recursion is still running
after `fuel` invocations, so a result for some fuel is a terminating run
and `none` for every fuel is a diverging one. -/

/-- One `tag_resource` response: success, a `ClientError` with a code, or
any other raised exception. -/
inductive EBApplyResp : Type
  | ok : EBApplyResp
  | clientError : String → EBApplyResp
  | exc : EBApplyResp
deriving DecidableEq, Repr

/-- `apply_tags` (`tag_eventbridge.py:84-113`): `True` on success;
`False` on `AccessDeniedException`, `ResourceNotFound`, unsupported, any
other `ClientError` code, or a generic exception; on `"ThrottlingExcep"`
sleep and recurse with the same arguments. -/
def apply_tags (fuel : Nat) (remote : Nat → EBApplyResp) (attempt : Nat) :
    Option Bool :=
  match fuel with
  | 0 => none
  | fuel' + 1 =>
    match remote attempt with
    | EBApplyResp.ok => some true
    | EBApplyResp.clientError code =>
        if code = "ThrottlingExcep" then apply_tags fuel' remote (attempt + 1)
        else some false
    | EBApplyResp.exc => some false

/-- A remote that rate-limits every invocation. -/
def alwaysThrottle : Nat → EBApplyResp :=
  fun _ => EBApplyResp.clientError "ThrottlingExcep"

/-- A remote that rate-limits the first three invocations, then
succeeds. -/
def throttleThrice : Nat → EBApplyResp :=
  fun n => if n < 3 then EBApplyResp.clientError "ThrottlingExcep"
    else EBApplyResp.ok

/-- C5 counterexample: against a remote that throttles the first three
invocations, `apply_tags` retries three times and returns success — it
does not give up with a rate-limited failure after re-invoking exactly
once, as the claim states. -/
theorem apply_tags_retries_beyond_one :
    apply_tags 10 throttleThrice 0 = some true := by decide

/-- C5 amended: the throttling retry re-invokes `apply_tags` with the
same arguments and NO bound on the number of retries: it keeps retrying
as long as the remote throttles and returns the first non-throttling
outcome; against an always-throttling remote the recursion never
completes for any recursion budget (in the Python source it is bounded
only by the interpreter's recursion limit, not by the function). -/
theorem apply_tags_unbounded_retry (remote : Nat → EBApplyResp)
    (a n : Nat)
    (hthr : ∀ i, i < n → remote (a + i) = EBApplyResp.clientError
      "ThrottlingExcep")
    (hok : remote (a + n) = EBApplyResp.ok) :
    (∀ fuel attempt, apply_tags fuel alwaysThrottle attempt = none) ∧
    (∀ fuel, n < fuel → apply_tags fuel remote a = some true) := by
  constructor
  · intro fuel
    induction fuel with
    | zero => intro attempt; rfl
    | succ fuel' ih =>
      intro attempt
      show (match alwaysThrottle attempt with
        | EBApplyResp.ok => some true
        | EBApplyResp.clientError code =>
            if code = "ThrottlingExcep" then
              apply_tags fuel' alwaysThrottle (attempt + 1)
            else some false
        | EBApplyResp.exc => some false) = none
      rw [show alwaysThrottle attempt =
        EBApplyResp.clientError "ThrottlingExcep" from rfl]
      dsimp only
      rw [if_pos rfl]
      exact ih (attempt + 1)
  · induction n generalizing a with
    | zero =>
      intro fuel hfuel
      rcases Nat.exists_eq_succ_of_ne_zero (Nat.pos_iff_ne_zero.mp hfuel)
        with ⟨fuel', hfuel'⟩
      subst hfuel'
      show (match remote a with
        | EBApplyResp.ok => some true
        | EBApplyResp.clientError code =>
            if code = "ThrottlingExcep" then
              apply_tags fuel' remote (a + 1)
            else some false
        | EBApplyResp.exc => some false) = some true
      rw [show remote a = EBApplyResp.ok from by simpa using hok]
    | succ m ih =>
      intro fuel hfuel
      rcases Nat.exists_eq_succ_of_ne_zero
        (Nat.pos_iff_ne_zero.mp (Nat.lt_of_le_of_lt (Nat.zero_le _) hfuel))
        with ⟨fuel', hfuel'⟩
      subst hfuel'
      show (match remote a with
        | EBApplyResp.ok => some true
        | EBApplyResp.clientError code =>
            if code = "ThrottlingExcep" then
              apply_tags fuel' remote (a + 1)
            else some false
        | EBApplyResp.exc => some false) = some true
      rw [show remote a = EBApplyResp.clientError "ThrottlingExcep" from by
        simpa using hthr 0 (Nat.succ_pos m)]
      dsimp only
      rw [if_pos rfl]
      exact ih (a + 1)
        (fun i hi => by
          rw [show a + 1 + i = a + (i + 1) from by omega]
          exact hthr (i + 1) (Nat.succ_lt_succ hi))
        (by rw [show a + 1 + m = a + (m + 1) from by omega]; exact hok)
        fuel' (Nat.lt_of_succ_lt_succ hfuel)

/-- Witness for C5's amended theorem at the throttle-three-times
remote. -/
theorem apply_tags_unbounded_retry_witness :
    (∀ fuel attempt, apply_tags fuel alwaysThrottle attempt = none) ∧
    (∀ fuel, 3 < fuel → apply_tags fuel throttleThrice 0 = some true) :=
  apply_tags_unbounded_retry throttleThrice 0 3
    (by
      intro i hi
      interval_cases i <;> rfl)
    (by rfl)

end TagScripts
